import Mathlib

/-!
Shallow embedding of the base64decoder repository's core: the base64
normalizer (cleanBase64, isValidBase64) and the content sniffer
(detectMimeType) from src/lib/file-utils.ts, and the viewport coordinate
transform (canvasToPdfCoordinates) from src/components/document-preview.tsx.
JavaScript strings are modelled as lists of characters.  The JavaScript
regular expressions used by the source are compiled by hand into first-order
matching functions (each one is noted next to the regex it implements).
Number arithmetic in the coordinate transform is modelled over the rationals
with explicit IEEE-style division by zero (JsNum).
-/

namespace B64

/-- Characters removed by JavaScript String.prototype.trim and matched by the
regex class backslash-s: tab, LF, VT, FF, CR, space, NBSP, and the Unicode
space separators, line/paragraph separators and BOM. -/
def isJsWs (c : Char) : Bool :=
  let n := c.toNat
  n == 9 || n == 10 || n == 11 || n == 12 || n == 13 || n == 32 || n == 160 ||
  n == 0x1680 || (0x2000 ≤ n && n ≤ 0x200A) || n == 0x2028 || n == 0x2029 ||
  n == 0x202F || n == 0x205F || n == 0x3000 || n == 0xFEFF

/-- ASCII whitespace stripped by the forgiving-base64 decode used by atob:
tab, LF, FF, CR, space. -/
def isAsciiWs (c : Char) : Bool :=
  let n := c.toNat
  n == 9 || n == 10 || n == 12 || n == 13 || n == 32

/-- Members of the base64 alphabet [A-Za-z0-9+/]. -/
def isB64Char (c : Char) : Bool :=
  let n := c.toNat
  (65 ≤ n && n ≤ 90) || (97 ≤ n && n ≤ 122) || (48 ≤ n && n ≤ 57) ||
  n == 43 || n == 47

/-- JavaScript String.prototype.trim on a character list. -/
def jsTrim (s : List Char) : List Char :=
  ((s.dropWhile isJsWs).reverse.dropWhile isJsWs).reverse

/-- Strips a literal prefix, returning the remainder on success. -/
def stripPre : List Char → List Char → Option (List Char)
  | [], s => some s
  | _ :: _, [] => none
  | p :: ps, c :: cs => if c = p then stripPre ps cs else none

/-- The literal characters of the string data-colon. -/
def dataPre : List Char := ['d', 'a', 't', 'a', ':']

/-- The literal characters of the string semicolon-base64-comma. -/
def b64Suffix : List Char := [';', 'b', 'a', 's', 'e', '6', '4', ',']

/-- Shared engine for the data-URI regexes of file-utils.ts.  A match of
caret-data-colon, a capture of one or more non-semicolon characters, then
the literal semicolon-base64-comma; returns the captured MIME characters and
the remainder after the comma.  Since the character class excludes the
semicolon, the regex match (greedy, with backtracking) succeeds exactly when
the text up to the first semicolon is nonempty and the literal follows it. -/
def dataUriSplit (s : List Char) : Option (List Char × List Char) :=
  match stripPre dataPre s with
  | none => none
  | some rest =>
    match stripPre b64Suffix (rest.dropWhile (fun c => c ≠ ';')) with
    | none => none
    | some p =>
      if (rest.takeWhile (fun c => c ≠ ';')).isEmpty then none
      else some (rest.takeWhile (fun c => c ≠ ';'), p)

/-- The capture group of the detectMimeType regex (no end anchor): the
declared MIME type of a data-URI prefix, when present. -/
def dataUriCapture (s : List Char) : Option (List Char) :=
  (dataUriSplit s).map Prod.fst

/-- Result of the replace call that feeds atob in detectMimeType: the string
with a data-URI prefix removed when the prefix regex matches, otherwise the
string unchanged. -/
def stripDataUriPre (s : List Char) : List Char :=
  match dataUriSplit s with
  | some pr => pr.2
  | none => s

/-- Characters the JavaScript regex dot does not match (no s flag):
LF, CR, and the Unicode line and paragraph separators. -/
def isLineTerm (c : Char) : Bool :=
  c.toNat == 10 || c.toNat == 13 || c.toNat == 0x2028 || c.toNat == 0x2029

/-- The cleanBase64 regex: like the capture regex but additionally demanding
dot-plus-dollar — a nonempty payload of non-line-terminator characters
reaching the end of the string.  Returns the payload capture. -/
def dataUriPayload (s : List Char) : Option (List Char) :=
  match dataUriSplit s with
  | none => none
  | some pr =>
    if !pr.2.isEmpty && pr.2.all (fun c => !isLineTerm c) then some pr.2
    else none

/-- cleanBase64 from src/lib/file-utils.ts: trim, strip a data-URI prefix
when the anchored regex matches, then delete every whitespace character. -/
def cleanBase64 (s : List Char) : List Char :=
  (match dataUriPayload (jsTrim s) with
    | some p => p
    | none => jsTrim s).filter (fun c => !isJsWs c)

/-- The isValidBase64 grammar regex: zero or more alphabet characters
followed by at most two equals signs, anchored at both ends.  Because the
alphabet class excludes the equals sign, the regex matches exactly when
everything after the longest alphabet prefix is empty, one equals sign, or
two equals signs. -/
def b64Grammar (s : List Char) : Bool :=
  (s.dropWhile isB64Char).isEmpty || s.dropWhile isB64Char == ['='] ||
    s.dropWhile isB64Char == ['=', '=']

/-- isValidBase64 from src/lib/file-utils.ts: false on the empty string,
otherwise the grammar regex and length-multiple-of-4 test on the cleaned
string. -/
def isValidBase64 (s : List Char) : Bool :=
  if s.isEmpty then false
  else b64Grammar (cleanBase64 s) && (cleanBase64 s).length % 4 == 0

/-- Modelled from the spec wording of claim C3, for comparison with
isValidBase64: the raw string itself consists of base64 alphabet characters
plus zero to two trailing equals signs and has length a multiple of 4. -/
def specBase64Shape (s : List Char) : Bool :=
  b64Grammar s && s.length % 4 == 0

/-- Value of a base64 alphabet character, as used by atob. -/
def b64Index (c : Char) : Option Nat :=
  let n := c.toNat
  if 65 ≤ n && n ≤ 90 then some (n - 65)
  else if 97 ≤ n && n ≤ 122 then some (n - 97 + 26)
  else if 48 ≤ n && n ≤ 57 then some (n - 48 + 52)
  else if n == 43 then some 62
  else if n == 47 then some 63
  else none

/-- Drops one trailing equals sign, when present. -/
def dropOneEq (s : List Char) : List Char :=
  match s.reverse with
  | '=' :: r => r.reverse
  | _ => s

/-- Padding removal of the forgiving-base64 decode: when the length is a
multiple of 4, remove up to two trailing equals signs. -/
def atobStrip (s : List Char) : List Char :=
  if s.length % 4 == 0 then dropOneEq (dropOneEq s) else s

/-- Bit reassembly of base64 sextets into bytes, with the forgiving-base64
handling of a trailing group of two or three sextets. -/
def sextetsToBytes : List Nat → List Nat
  | s1 :: s2 :: s3 :: s4 :: rest =>
    (s1 * 4 + s2 / 16) :: ((s2 % 16) * 16 + s3 / 4) :: ((s3 % 4) * 64 + s4) ::
      sextetsToBytes rest
  | [s1, s2] => [s1 * 4 + s2 / 16]
  | [s1, s2, s3] => [s1 * 4 + s2 / 16, (s2 % 16) * 16 + s3 / 4]
  | _ => []

/-- The atob primitive (WHATWG forgiving-base64 decode): strip ASCII
whitespace, remove permitted padding, reject a remainder-1 length or any
character outside the alphabet, and reassemble the sextets into bytes,
returned as a Latin-1 character list.  A thrown InvalidCharacterError is
modelled as none. -/
def atob (s : List Char) : Option (List Char) :=
  let d := atobStrip (s.filter (fun c => !isAsciiWs c))
  if d.length % 4 == 1 then none
  else
    match d.mapM b64Index with
    | none => none
    | some sx => some ((sextetsToBytes sx).map Char.ofNat)

/-- Whitespace of the JSON grammar used by JSON.parse. -/
def isJsonWs (c : Char) : Bool :=
  c.toNat == 32 || c.toNat == 9 || c.toNat == 10 || c.toNat == 13

/-- Skips JSON whitespace. -/
def skipWs (s : List Char) : List Char := s.dropWhile isJsonWs

/-- ASCII decimal digit. -/
def isDigit (c : Char) : Bool := 48 ≤ c.toNat && c.toNat ≤ 57

/-- ASCII hexadecimal digit. -/
def isHexDigit (c : Char) : Bool :=
  isDigit c || (97 ≤ c.toNat && c.toNat ≤ 102) || (65 ≤ c.toNat && c.toNat ≤ 70)

/-- Recognises the tail of a JSON string literal (opening quote already
consumed), returning the remaining input.  Escapes and the unescaped
control-character restriction follow the JSON grammar of JSON.parse. -/
def parseJString : Nat → List Char → Option (List Char)
  | 0, _ => none
  | _, [] => none
  | fuel + 1, c :: rest =>
    if c == '"' then some rest
    else if c == '\\' then
      match rest with
      | [] => none
      | e :: rest2 =>
        if e == '"' || e == '\\' || e == '/' || e == 'b' || e == 'f' ||
            e == 'n' || e == 'r' || e == 't' then
          parseJString fuel rest2
        else if e == 'u' then
          match rest2 with
          | h1 :: h2 :: h3 :: h4 :: rest3 =>
            if isHexDigit h1 && isHexDigit h2 && isHexDigit h3 && isHexDigit h4
            then parseJString fuel rest3
            else none
          | _ => none
        else none
    else if c.toNat < 32 then none
    else parseJString fuel rest

/-- Recognises the integer part of a JSON number: a zero, or a nonzero
digit followed by digits. -/
def parseIntPart : List Char → Option (List Char)
  | [] => none
  | c :: r =>
    if c == '0' then some r
    else if isDigit c then some (r.dropWhile isDigit)
    else none

/-- Recognises an optional JSON fraction part. -/
def parseFrac (s : List Char) : Option (List Char) :=
  match s with
  | '.' :: r =>
    if (r.takeWhile isDigit).isEmpty then none else some (r.dropWhile isDigit)
  | _ => some s

/-- Recognises an optional JSON exponent part. -/
def parseExp (s : List Char) : Option (List Char) :=
  match s with
  | [] => some []
  | c :: r =>
    if c == 'e' || c == 'E' then
      let r2 := match r with
        | c2 :: r3 => if c2 == '+' || c2 == '-' then r3 else r
        | [] => r
      if (r2.takeWhile isDigit).isEmpty then none
      else some (r2.dropWhile isDigit)
    else some (c :: r)

/-- Recognises a JSON number. -/
def parseNumber (s : List Char) : Option (List Char) :=
  let s1 := match s with
    | c :: r => if c == '-' then r else c :: r
    | [] => []
  match parseIntPart s1 with
  | none => none
  | some s2 =>
    match parseFrac s2 with
    | none => none
    | some s3 => parseExp s3

/-- Mode tag of the JSON recogniser: a value, the members of an object
after the opening brace, or the elements of an array after the opening
bracket. -/
inductive JMode where
  | val : JMode
  | mem : JMode
  | elems : JMode

/-- The JSON grammar of JSON.parse as a single fuelled recogniser.  In val
mode the first character of a value is at the head of the input (surrounding
whitespace already skipped); in mem and elems modes the input follows the
opening brace or bracket and ends with the matching closer.  Every recursive
call spends one unit of fuel, and at most two consecutive calls can happen
without consuming input, so any fuel above twice the input length is
ample. -/
def parseJ : Nat → JMode → List Char → Option (List Char)
  | 0, _, _ => none
  | fuel + 1, JMode.val, s =>
    match s with
    | [] => none
    | c :: r =>
      if c == '{' then
        match skipWs r with
        | '}' :: r2 => some r2
        | r1 => parseJ fuel JMode.mem r1
      else if c == '[' then
        match skipWs r with
        | ']' :: r2 => some r2
        | r1 => parseJ fuel JMode.elems r1
      else if c == '"' then parseJString (r.length + 1) r
      else if c == 't' then stripPre ['r', 'u', 'e'] r
      else if c == 'f' then stripPre ['a', 'l', 's', 'e'] r
      else if c == 'n' then stripPre ['u', 'l', 'l'] r
      else if c == '-' || isDigit c then parseNumber (c :: r)
      else none
  | fuel + 1, JMode.mem, s =>
    match s with
    | '"' :: r =>
      match parseJString (r.length + 1) r with
      | none => none
      | some r1 =>
        match skipWs r1 with
        | ':' :: r2 =>
          match parseJ fuel JMode.val (skipWs r2) with
          | none => none
          | some r3 =>
            match skipWs r3 with
            | ',' :: r4 => parseJ fuel JMode.mem (skipWs r4)
            | '}' :: r4 => some r4
            | _ => none
        | _ => none
    | _ => none
  | fuel + 1, JMode.elems, s =>
    match parseJ fuel JMode.val s with
    | none => none
    | some r1 =>
      match skipWs r1 with
      | ',' :: r2 => parseJ fuel JMode.elems (skipWs r2)
      | ']' :: r2 => some r2
      | _ => none

/-- JSON.parse viewed as a recogniser: true exactly when the whole input is
a single JSON text.  A thrown SyntaxError is modelled as false. -/
def jsonValid (s : List Char) : Bool :=
  match parseJ (2 * s.length + 2) JMode.val (skipWs s) with
  | some r => (skipWs r).isEmpty
  | none => false

/-- The pair returned by the sniffer: a MIME string and an extension. -/
structure TypeGuess where
  mime : String
  ext : String
deriving DecidableEq

/-- MIME_SIGNATURES from src/lib/file-utils.ts, in object insertion order
(Object.entries preserves it for these non-numeric keys).  Keys are spelled
as character lists. -/
def MIME_SIGNATURES : List (List Char × TypeGuess) := [
  (['J', 'V', 'B', 'E', 'R', 'i', '0'], ⟨"application/pdf", "pdf"⟩),
  (['i', 'V', 'B', 'O', 'R', 'w', '0', 'K', 'G', 'g', 'o'], ⟨"image/png", "png"⟩),
  (['/', '9', 'j', '/'], ⟨"image/jpeg", "jpg"⟩),
  (['R', '0', 'l', 'G', 'O', 'D', 'l', 'h'], ⟨"image/gif", "gif"⟩),
  (['R', '0', 'l', 'G', 'O', 'D', 'd', 'h'], ⟨"image/gif", "gif"⟩),
  (['U', 'E', 's', 'D', 'B', 'B', 'Q', 'A'], ⟨"application/zip", "zip"⟩),
  (['U', 'E', 's', 'F', 'B', 'g', 'A'], ⟨"application/zip", "zip"⟩),
  (['P', 'K'], ⟨"application/zip", "zip"⟩),
  (['A', 'A', 'A', 'A'], ⟨"video/mp4", "mp4"⟩),
  (['G', 'k', 'X', 'f', 'o'], ⟨"video/webm", "webm"⟩),
  (['Q', 'k', '0'], ⟨"image/bmp", "bmp"⟩),
  (['S', 'U', 'k', 'q', 'A', 'A'], ⟨"image/tiff", "tiff"⟩),
  (['T', 'U', '0', 'A', 'K', 'g'], ⟨"image/tiff", "tiff"⟩),
  (['U', 'k', 'l', 'G', 'R'], ⟨"image/webp", "webp"⟩)]

/-- The signature scan of detectMimeType: first table entry whose key is a
literal prefix of the payload. -/
def findSignature (s : List Char) : Option TypeGuess :=
  match MIME_SIGNATURES.find? (fun pr => pr.1.isPrefixOf s) with
  | some pr => some pr.2
  | none => none

/-- ASCII letter or digit, the class kept by the extension-stripping regex
(case-insensitive). -/
def isAsciiAlnum (c : Char) : Bool :=
  let n := c.toNat
  (65 ≤ n && n ≤ 90) || (97 ≤ n && n ≤ 122) || (48 ≤ n && n ≤ 57)

/-- Extension derivation of the data-URI branch of detectMimeType: element 1
of the split of the MIME on the slash (when it exists), with every character
outside the letters-and-digits class removed, defaulting to bin when absent
or empty. -/
def extFromMime (m : List Char) : String :=
  match m.dropWhile (fun c => c ≠ '/') with
  | [] => "bin"
  | _ :: after =>
    if ((after.takeWhile (fun c => c ≠ '/')).filter isAsciiAlnum).isEmpty then
      "bin"
    else String.mk ((after.takeWhile (fun c => c ≠ '/')).filter isAsciiAlnum)

/-- JavaScript toLowerCase restricted to the Latin-1 range that atob output
lives in: the ASCII uppercase letters and the uppercase Latin-1 letters
(except the multiplication sign) move down by 32. -/
def lowerJs (c : Char) : Char :=
  let n := c.toNat
  if (65 ≤ n && n ≤ 90) || (192 ≤ n && n ≤ 222 && !(n == 215)) then
    Char.ofNat (n + 32)
  else c

/-- String.prototype.includes on character lists. -/
def hasSub (needle : List Char) : List Char → Bool
  | [] => needle.isEmpty
  | c :: rest => needle.isPrefixOf (c :: rest) || hasSub needle rest

/-- Needle of the HTML doctype check. -/
def doctypeNeedle : List Char :=
  ['<', '!', 'D', 'O', 'C', 'T', 'Y', 'P', 'E', ' ', 'h', 't', 'm', 'l']

/-- Needle of the xml declaration check. -/
def xmlNeedle : List Char := ['<', '?', 'x', 'm', 'l']

/-- Needle of the lowercased html tag check. -/
def htmlNeedle : List Char := ['<', 'h', 't', 'm', 'l']

/-- Needle of the first JavaScript keyword check. -/
def functionNeedle : List Char := ['f', 'u', 'n', 'c', 't', 'i', 'o', 'n']

/-- Needle of the second JavaScript keyword check (with trailing space). -/
def constNeedle : List Char := ['c', 'o', 'n', 's', 't', ' ']

/-- Needle of the third JavaScript keyword check (with trailing space). -/
def letNeedle : List Char := ['l', 'e', 't', ' ']

/-- Character class of the printable-text regex: visible ASCII or the
whitespace class. -/
def isPrintableOrWs (c : Char) : Bool :=
  (32 ≤ c.toNat && c.toNat ≤ 126) || isJsWs c

/-- detectMimeType from src/lib/file-utils.ts.  Branch order follows the
source: data-URI declared type, signature table scan, then the try block.
An atob result of none models the thrown error reaching the catch, as does a
JSON.parse failure after a brace or bracket start; both land on the
octet-stream default. -/
def detectMimeType (p : List Char) : TypeGuess :=
  match dataUriCapture p with
  | some m => ⟨String.mk m, extFromMime m⟩
  | none =>
    match findSignature p with
    | some t => t
    | none =>
      match atob (stripDataUriPre p) with
      | none => ⟨"application/octet-stream", "bin"⟩
      | some decoded =>
        if ['{'].isPrefixOf (jsTrim decoded) ||
            ['['].isPrefixOf (jsTrim decoded) then
          if jsonValid (jsTrim decoded) then ⟨"application/json", "json"⟩
          else ⟨"application/octet-stream", "bin"⟩
        else if xmlNeedle.isPrefixOf (jsTrim decoded) ||
            ['<'].isPrefixOf (jsTrim decoded) then
          ⟨"application/xml", "xml"⟩
        else if doctypeNeedle.isPrefixOf (jsTrim decoded) ||
            hasSub htmlNeedle ((jsTrim decoded).map lowerJs) then
          ⟨"text/html", "html"⟩
        else if hasSub functionNeedle (jsTrim decoded) ||
            hasSub constNeedle (jsTrim decoded) ||
            hasSub letNeedle (jsTrim decoded) then
          ⟨"application/javascript", "js"⟩
        else if !decoded.isEmpty && decoded.all isPrintableOrWs then
          ⟨"text/plain", "txt"⟩
        else ⟨"application/octet-stream", "bin"⟩

/-- A JavaScript number as produced by the coordinate transform: a finite
value (kept exact as a rational) or one of the IEEE non-finite values. -/
inductive JsNum where
  | fin : ℚ → JsNum
  | posInf : JsNum
  | negInf : JsNum
  | nan : JsNum
deriving DecidableEq

/-- True exactly on finite values. -/
def JsNum.isFinite : JsNum → Bool
  | .fin _ => true
  | _ => false

/-- IEEE division over exact operands: finite quotient when the divisor is
nonzero, otherwise NaN for a zero dividend and a signed infinity else (the
exact divisor zero carries the sign of IEEE positive zero). -/
def jsDiv (x y : ℚ) : JsNum :=
  if y = 0 then
    if x = 0 then .nan else if 0 < x then .posInf else .negInf
  else .fin (x / y)

/-- The viewport fields read by canvasToPdfCoordinates: the six affine
coefficients of the PDF-to-canvas transform together with the scale factor
and the viewport height. -/
structure Viewport where
  a : ℚ
  b : ℚ
  c : ℚ
  d : ℚ
  e : ℚ
  f : ℚ
  scale : ℚ
  height : ℚ

/-- canvasToPdfCoordinates from src/components/document-preview.tsx (its
manual path; the optional convertToPdfPoint delegation belongs to the
external rendering engine and is outside the specified algorithm): compute
the determinant, fall back to the scale-only conversion when its absolute
value is below 1e-10, and otherwise apply the exact inverse affine map. -/
def canvasToPdfCoordinates (canvasX canvasY : ℚ) (v : Viewport) :
    JsNum × JsNum :=
  let det := v.a * v.d - v.b * v.c
  if |det| < 1 / 10000000000 then
    (jsDiv canvasX v.scale, jsDiv (v.height - canvasY) v.scale)
  else
    (jsDiv (v.d * (canvasX - v.e) - v.c * (canvasY - v.f)) det,
     jsDiv (-v.b * (canvasX - v.e) + v.a * (canvasY - v.f)) det)

theorem jsDiv_zero_isFinite (x : ℚ) : (jsDiv x 0).isFinite = false := by
  unfold jsDiv
  rw [if_pos rfl]
  split
  · rfl
  · split <;> rfl

/-- C1 (counterexample): at the all-zero transform with scale 0, viewport
height 100 and pixel (1, 2), canvasToPdfCoordinates takes the fallback
branch and returns positive infinity in both components, so it does not
return finite numbers as the claim states. -/
theorem C1_cex_zero_scale_not_finite :
    canvasToPdfCoordinates 1 2 ⟨0, 0, 0, 0, 0, 0, 0, 100⟩ =
      (JsNum.posInf, JsNum.posInf) ∧
    (canvasToPdfCoordinates 1 2 ⟨0, 0, 0, 0, 0, 0, 0, 100⟩).1.isFinite = false ∧
    (canvasToPdfCoordinates 1 2 ⟨0, 0, 0, 0, 0, 0, 0, 100⟩).2.isFinite = false := by
  have h : canvasToPdfCoordinates 1 2 ⟨0, 0, 0, 0, 0, 0, 0, 100⟩ =
      (JsNum.posInf, JsNum.posInf) := by
    unfold canvasToPdfCoordinates jsDiv
    norm_num
  refine ⟨h, ?_, ?_⟩ <;> rw [h] <;> rfl

/-- C1 (amended): for every transform with scale 0 whose determinant has
absolute value below 1e-10 (the fallback branch), canvasToPdfCoordinates is
a total computation — it does not throw — and returns exactly the fallback
quotients pixelX / scale and (height - pixelY) / scale; with scale 0 these
IEEE quotients are infinities or NaN, never finite numbers. -/
theorem C1_degenerate_fallback (px py : ℚ) (v : Viewport)
    (hs : v.scale = 0) (hdet : |v.a * v.d - v.b * v.c| < 1 / 10000000000) :
    canvasToPdfCoordinates px py v =
      (jsDiv px v.scale, jsDiv (v.height - py) v.scale) ∧
    (canvasToPdfCoordinates px py v).1.isFinite = false ∧
    (canvasToPdfCoordinates px py v).2.isFinite = false := by
  have h1 : canvasToPdfCoordinates px py v =
      (jsDiv px v.scale, jsDiv (v.height - py) v.scale) := by
    unfold canvasToPdfCoordinates
    rw [if_pos hdet]
  refine ⟨h1, ?_, ?_⟩ <;> rw [h1, hs]
  · exact jsDiv_zero_isFinite px
  · exact jsDiv_zero_isFinite (v.height - py)

/-- Witness for C1 at the all-zero transform with height 100 and
pixel (1, 2). -/
theorem C1_degenerate_fallback_witness :
    canvasToPdfCoordinates 1 2 ⟨0, 0, 0, 0, 0, 0, 0, 100⟩ =
      (jsDiv 1 0, jsDiv (100 - 2) 0) ∧
    (canvasToPdfCoordinates 1 2 ⟨0, 0, 0, 0, 0, 0, 0, 100⟩).1.isFinite = false ∧
    (canvasToPdfCoordinates 1 2 ⟨0, 0, 0, 0, 0, 0, 0, 100⟩).2.isFinite = false :=
  C1_degenerate_fallback 1 2 ⟨0, 0, 0, 0, 0, 0, 0, 100⟩ rfl (by norm_num)

/-- C2 (confirmed): for every transform whose determinant is bounded away
from zero by 1e-10 and every document point (x, y), mapping forward to pixel
coordinates and back through canvasToPdfCoordinates returns exactly (x, y)
over exact arithmetic (hence within any positive tolerance). -/
theorem C2_round_trip (v : Viewport) (x y : ℚ)
    (hdet : 1 / 10000000000 ≤ |v.a * v.d - v.b * v.c|) :
    canvasToPdfCoordinates (v.a * x + v.c * y + v.e)
      (v.b * x + v.d * y + v.f) v = (JsNum.fin x, JsNum.fin y) := by
  have hne : v.a * v.d - v.b * v.c ≠ 0 := by
    intro h0
    rw [h0] at hdet
    norm_num at hdet
  unfold canvasToPdfCoordinates
  rw [if_neg (not_lt.mpr hdet)]
  unfold jsDiv
  rw [if_neg hne, if_neg hne]
  simp only [Prod.mk.injEq, JsNum.fin.injEq]
  constructor
  · field_simp
    ring
  · field_simp
    ring

/-- Witness for C2 at the identity transform and document point (3, 5). -/
theorem C2_round_trip_witness :
    canvasToPdfCoordinates (1 * 3 + 0 * 5 + 0) (0 * 3 + 1 * 5 + 0)
      ⟨1, 0, 0, 1, 0, 0, 1, 100⟩ = (JsNum.fin 3, JsNum.fin 5) :=
  C2_round_trip ⟨1, 0, 0, 1, 0, 0, 1, 100⟩ 3 5 (by norm_num)

/-- C6 (counterexample): the base64 encoding of the truncated JSON text
consisting of an opening brace, the quoted key a, a colon and the digit 1
decodes to printable ASCII, yet detectMimeType classifies it as
application/octet-stream and not as text/plain as the claim states, because
the JSON.parse failure jumps to the catch block past the later rules. -/
theorem C6_cex_truncated_json_not_text :
    detectMimeType ("eyJhIjox".toList) = ⟨"application/octet-stream", "bin"⟩ ∧
    detectMimeType ("eyJhIjox".toList) ≠ ⟨"text/plain", "txt"⟩ := by
  constructor
  · decide
  · decide

/-- C6 (amended): the base64 encoding of the JSON object binding a to 1 is
classified as application/json, and the base64 encoding of its truncation
(dropping the closing brace) is never classified as JSON: it yields the
default application/octet-stream, the JSON.parse failure having skipped the
remaining heuristic rules including the printable-text one. -/
theorem C6_json_detection :
    detectMimeType ("eyJhIjoxfQ==".toList) = ⟨"application/json", "json"⟩ ∧
    detectMimeType ("eyJhIjox".toList) = ⟨"application/octet-stream", "bin"⟩ ∧
    detectMimeType ("eyJhIjox".toList) ≠ ⟨"application/json", "json"⟩ := by
  refine ⟨by decide, by decide, by decide⟩

theorem isPrefixOf_iff_exists (l1 l2 : List Char) :
    l1.isPrefixOf l2 = true ↔ ∃ t, l1 ++ t = l2 := by
  induction l1 generalizing l2 with
  | nil => simp [List.isPrefixOf]
  | cons a as ih =>
    cases l2 with
    | nil => simp [List.isPrefixOf]
    | cons b bs =>
      constructor
      · intro h
        simp only [List.isPrefixOf, Bool.and_eq_true, beq_iff_eq] at h
        obtain ⟨t, ht⟩ := (ih bs).mp h.2
        exact ⟨t, by rw [List.cons_append, ht, h.1]⟩
      · intro hex
        obtain ⟨t, ht⟩ := hex
        rw [List.cons_append] at ht
        injection ht with h1 h2
        simp only [List.isPrefixOf, Bool.and_eq_true, beq_iff_eq]
        exact ⟨h1, (ih bs).mpr ⟨t, h2⟩⟩

/-- C7 (confirmed): every payload that begins with the PDF signature
characters J, V, B, E, R, i, 0 is classified as application/pdf by
detectMimeType: the data-URI rule cannot match such a payload, and the PDF
entry is the first one of the signature table, so no later signature entry
or heuristic rule is consulted. -/
theorem C7_pdf_signature_priority (p : List Char)
    (h : (['J', 'V', 'B', 'E', 'R', 'i', '0'] : List Char).isPrefixOf p = true) :
    detectMimeType p = ⟨"application/pdf", "pdf"⟩ := by
  obtain ⟨t, rfl⟩ := (isPrefixOf_iff_exists _ p).mp h
  have hfind : findSignature (['J', 'V', 'B', 'E', 'R', 'i', '0'] ++ t) =
      some ⟨"application/pdf", "pdf"⟩ := by
    unfold findSignature MIME_SIGNATURES
    rw [List.find?_cons_of_pos]
    exact (isPrefixOf_iff_exists _ _).mpr ⟨t, rfl⟩
  have hcap : dataUriCapture (['J', 'V', 'B', 'E', 'R', 'i', '0'] ++ t) =
      none := by
    simp [dataUriCapture, dataUriSplit, stripPre, dataPre]
  unfold detectMimeType
  rw [hcap, hfind]

/-- Witness for C7 at the payload JVBERi0x. -/
theorem C7_pdf_signature_priority_witness :
    detectMimeType (['J', 'V', 'B', 'E', 'R', 'i', '0', 'x'] : List Char) =
      ⟨"application/pdf", "pdf"⟩ :=
  C7_pdf_signature_priority ['J', 'V', 'B', 'E', 'R', 'i', '0', 'x'] (by decide)

theorem dataUriSplit_fst_ne_nil (s : List Char) (pr : List Char × List Char)
    (h : dataUriSplit s = some pr) : pr.1 ≠ [] := by
  unfold dataUriSplit at h
  split at h
  · exact absurd h (by simp)
  · split at h
    · exact absurd h (by simp)
    · split at h
      · exact absurd h (by simp)
      case _ hne =>
        injection h with h
        rw [← h]
        simp only [List.isEmpty_iff] at hne
        intro hnil
        exact hne hnil

theorem string_mk_ne_nil (m : List Char) (hm : m ≠ []) : String.mk m ≠ "" := by
  intro hmk
  apply hm
  have hd := congrArg String.data hmk
  simpa using hd

theorem extFromMime_ne_empty (m : List Char) : extFromMime m ≠ "" := by
  unfold extFromMime
  split
  · decide
  · split
    · decide
    case _ hne =>
      apply string_mk_ne_nil
      simp only [List.isEmpty_iff] at hne
      intro hnil
      exact hne hnil

theorem findSignature_fields (p : List Char) (t : TypeGuess)
    (h : findSignature p = some t) : t.mime ≠ "" ∧ t.ext ≠ "" := by
  unfold findSignature at h
  split at h
  case _ pr hf =>
    injection h with h
    rw [← h]
    have hmem := List.mem_of_find?_eq_some hf
    have hall : ∀ q ∈ MIME_SIGNATURES, q.2.mime ≠ "" ∧ q.2.ext ≠ "" := by decide
    exact hall pr hmem
  · exact absurd h (by simp)

/-- C9 (confirmed): detectMimeType is total — in this embedding it is a
total function, every source of a JavaScript exception (atob, JSON.parse)
being absorbed inside the try block — and always returns a pair of nonempty
mime and ext strings; when the data-URI rule, every signature and the base64
decode all fail, the result is the octet-stream default. -/
theorem C9_detect_total (p : List Char) :
    ((detectMimeType p).mime ≠ "" ∧ (detectMimeType p).ext ≠ "") ∧
    (dataUriCapture p = none → findSignature p = none →
      atob (stripDataUriPre p) = none →
      detectMimeType p = ⟨"application/octet-stream", "bin"⟩) := by
  constructor
  · unfold detectMimeType
    split
    case _ m heq =>
      refine ⟨?_, extFromMime_ne_empty m⟩
      apply string_mk_ne_nil
      unfold dataUriCapture at heq
      rcases hsp : dataUriSplit p with _ | pr
      · rw [hsp] at heq; exact absurd heq (by simp)
      · rw [hsp] at heq
        simp at heq
        rw [← heq]
        exact dataUriSplit_fst_ne_nil p pr hsp
    case _ =>
      split
      case _ t heq => exact findSignature_fields p t heq
      · split
        · exact ⟨by decide, by decide⟩
        · split
          · split
            · exact ⟨by decide, by decide⟩
            · exact ⟨by decide, by decide⟩
          · split
            · exact ⟨by decide, by decide⟩
            · split
              · exact ⟨by decide, by decide⟩
              · split
                · exact ⟨by decide, by decide⟩
                · split
                  · exact ⟨by decide, by decide⟩
                  · exact ⟨by decide, by decide⟩
  · intro h1 h2 h3
    unfold detectMimeType
    rw [h1, h2, h3]

/-- Witness for C9 at the three-character garbage input of exclamation
marks, which no rule matches. -/
theorem C9_detect_total_witness :
    detectMimeType (['!', '!', '!'] : List Char) =
      ⟨"application/octet-stream", "bin"⟩ :=
  (C9_detect_total ['!', '!', '!']).2 (by decide) (by decide) (by decide)

/-- C10 (confirmed): when the payload reaches the heuristic block, decodes,
and its trimmed text starts with a brace or a bracket but is not well-formed
JSON, detectMimeType returns the octet-stream default: the JSON.parse
failure escapes to the catch block, so the XML, HTML, JavaScript and
printable-text rules are never tested. -/
theorem C10_json_failure_skips_heuristics (p d : List Char)
    (h1 : dataUriCapture p = none) (h2 : findSignature p = none)
    (h3 : atob (stripDataUriPre p) = some d)
    (h4 : (['{'] : List Char).isPrefixOf (jsTrim d) = true ∨
      (['['] : List Char).isPrefixOf (jsTrim d) = true)
    (h5 : jsonValid (jsTrim d) = false) :
    detectMimeType p = ⟨"application/octet-stream", "bin"⟩ := by
  unfold detectMimeType
  rw [h1, h2, h3]
  dsimp only
  have hcond : ((['{'] : List Char).isPrefixOf (jsTrim d) ||
      (['['] : List Char).isPrefixOf (jsTrim d)) = true := by
    rcases h4 with h | h <;> simp [h]
  rw [hcond, if_pos rfl, h5]
  rfl

/-- Witness for C10 at the base64 encoding of the truncated JSON text. -/
theorem C10_json_failure_skips_heuristics_witness :
    detectMimeType ("eyJhIjox".toList) =
      ⟨"application/octet-stream", "bin"⟩ := by
  refine C10_json_failure_skips_heuristics ("eyJhIjox".toList)
    ((String.toList "eyJhIjox").drop 0 |> stripDataUriPre |> atob |>.getD [])
    ?_ ?_ ?_ ?_ ?_ <;> decide

/-- C5 (counterexample): the payload PCFET0NUWVBFIGh0bWw+ decodes to the
fifteen characters of an HTML doctype line, whose trimmed text starts with
the doctype needle, yet detectMimeType classifies it as application/xml and
not text/html as the claim states: the starts-with-less-than rule fires
before the doctype rule. -/
theorem C5_cex_doctype_is_xml :
    atob (stripDataUriPre ("PCFET0NUWVBFIGh0bWw+".toList)) =
      some ("<!DOCTYPE html>".toList) ∧
    doctypeNeedle.isPrefixOf (jsTrim ("<!DOCTYPE html>".toList)) = true ∧
    detectMimeType ("PCFET0NUWVBFIGh0bWw+".toList) =
      ⟨"application/xml", "xml"⟩ ∧
    detectMimeType ("PCFET0NUWVBFIGh0bWw+".toList) ≠ ⟨"text/html", "html"⟩ :=
  ⟨by decide, by decide, by decide, by decide⟩

/-- C5 (amended): for every payload with no data-URI prefix and no matching
binary signature whose base64 decoding succeeds and whose trimmed decoded
text starts with the HTML doctype needle (hence with a less-than sign, so
neither with a brace nor a bracket), detectMimeType returns application/xml:
the earlier starts-with-less-than rule fires, so the HTML rule is never
reached for such text. -/
theorem C5_doctype_yields_xml (p d : List Char)
    (h1 : dataUriCapture p = none) (h2 : findSignature p = none)
    (h3 : atob (stripDataUriPre p) = some d)
    (h4 : doctypeNeedle.isPrefixOf (jsTrim d) = true) :
    detectMimeType p = ⟨"application/xml", "xml"⟩ := by
  obtain ⟨t, ht⟩ := (isPrefixOf_iff_exists _ _).mp h4
  unfold detectMimeType
  rw [h1, h2, h3]
  dsimp only
  rw [← ht]
  simp [doctypeNeedle, xmlNeedle, List.isPrefixOf]

/-- Witness for C5 at the payload encoding the HTML doctype line. -/
theorem C5_doctype_yields_xml_witness :
    detectMimeType ("PCFET0NUWVBFIGh0bWw+".toList) =
      ⟨"application/xml", "xml"⟩ :=
  C5_doctype_yields_xml ("PCFET0NUWVBFIGh0bWw+".toList)
    ("<!DOCTYPE html>".toList) (by decide) (by decide) (by decide) (by decide)

/-- C8 (confirmed): for every input carrying a data-URI prefix, the declared
MIME type is returned verbatim and the extension is derived by extFromMime —
the subtype component of the MIME with every character outside the ASCII
letters and digits removed, defaulting to bin — so the declared type
image/svg+xml yields the extension svgxml. -/
theorem C8_data_uri_declared (p m : List Char)
    (h : dataUriCapture p = some m) :
    detectMimeType p = ⟨String.mk m, extFromMime m⟩ ∧
    extFromMime ("image/svg+xml".toList) = "svgxml" := by
  constructor
  · unfold detectMimeType
    rw [h]
  · decide

/-- Witness for C8 at a data URI declaring image/svg+xml. -/
theorem C8_data_uri_declared_witness :
    detectMimeType ("data:image/svg+xml;base64,AA==".toList) =
      ⟨String.mk ("image/svg+xml".toList),
        extFromMime ("image/svg+xml".toList)⟩ ∧
    extFromMime ("image/svg+xml".toList) = "svgxml" :=
  C8_data_uri_declared ("data:image/svg+xml;base64,AA==".toList)
    ("image/svg+xml".toList) (by decide)

theorem dropWhile_eq_self_of_forall (p : Char → Bool) (l : List Char)
    (h : ∀ c ∈ l, p c = false) : l.dropWhile p = l := by
  cases l with
  | nil => rfl
  | cons a t =>
    rw [List.dropWhile_cons, if_neg]
    simp [h a (List.mem_cons_self a t)]

theorem jsTrim_eq_self_of_forall (l : List Char)
    (h : ∀ c ∈ l, isJsWs c = false) : jsTrim l = l := by
  unfold jsTrim
  rw [dropWhile_eq_self_of_forall _ _ h]
  rw [dropWhile_eq_self_of_forall _ _
    (fun c hc => h c (List.mem_reverse.mp hc))]
  exact List.reverse_reverse l

theorem stripPre_mem (pre s r : List Char) (h : stripPre pre s = some r) :
    ∀ c ∈ pre, c ∈ s := by
  induction pre generalizing s with
  | nil => intro c hc; exact absurd hc (by simp)
  | cons a t ih =>
    cases s with
    | nil => exact absurd h (by simp [stripPre])
    | cons b u =>
      unfold stripPre at h
      by_cases hb : b = a
      · rw [if_pos hb] at h
        intro c hc
        rcases List.mem_cons.mp hc with rfl | hct
        · rw [hb]; exact List.mem_cons_self c u
        · exact List.mem_cons_of_mem b (ih u h c hct)
      · rw [if_neg hb] at h
        exact absurd h (by simp)

theorem dataUriSplit_none_of_no_colon (s : List Char)
    (h : (':' : Char) ∉ s) : dataUriSplit s = none := by
  cases hs : stripPre dataPre s with
  | none => unfold dataUriSplit; rw [hs]
  | some rest =>
    exact absurd (stripPre_mem dataPre s rest hs ':' (by simp [dataPre])) h

theorem allowed_char_facts (c : Char) (h : isB64Char c = true ∨ c = '=') :
    isJsWs c = false ∧ c.toNat ≠ 58 := by
  rcases h with h | rfl
  · unfold isB64Char at h
    simp only [Bool.or_eq_true, Bool.and_eq_true, beq_iff_eq,
      decide_eq_true_eq] at h
    constructor
    · cases hb : isJsWs c with
      | false => rfl
      | true =>
        exfalso
        unfold isJsWs at hb
        simp only [Bool.or_eq_true, Bool.and_eq_true, beq_iff_eq,
          decide_eq_true_eq] at hb
        omega
    · omega
  · exact ⟨by decide, by decide⟩

theorem grammar_mem_allowed (s : List Char) (hg : b64Grammar s = true) :
    ∀ c ∈ s, isB64Char c = true ∨ c = '=' := by
  intro c hc
  rw [← List.takeWhile_append_dropWhile (p := isB64Char) (l := s)] at hc
  rcases List.mem_append.mp hc with h | h
  · exact Or.inl (List.mem_takeWhile_imp h)
  · right
    unfold b64Grammar at hg
    simp only [Bool.or_eq_true, List.isEmpty_iff, beq_iff_eq] at hg
    rcases hg with (h0 | h1) | h2
    · rw [h0] at h; exact absurd h (by simp)
    · rw [h1] at h; simpa using h
    · rw [h2] at h
      rcases List.mem_cons.mp h with rfl | h3
      · rfl
      · simpa using h3

theorem clean_eq_self_core (q : List Char)
    (hws : ∀ c ∈ q, isJsWs c = false)
    (hpay : dataUriPayload q = none) : cleanBase64 q = q := by
  unfold cleanBase64
  rw [jsTrim_eq_self_of_forall q hws, hpay]
  dsimp only
  exact List.filter_eq_self.mpr (fun a ha => by simp [hws a ha])

theorem clean_eq_self_of_allowed (s : List Char)
    (hall : ∀ c ∈ s, isB64Char c = true ∨ c = '=') : cleanBase64 s = s := by
  have hws : ∀ c ∈ s, isJsWs c = false :=
    fun c hc => (allowed_char_facts c (hall c hc)).1
  have hcol : (':' : Char) ∉ s :=
    fun hmem => (allowed_char_facts ':' (hall ':' hmem)).2 (by decide)
  have hpay : dataUriPayload s = none := by
    unfold dataUriPayload
    rw [dataUriSplit_none_of_no_colon s hcol]
  exact clean_eq_self_core s hws hpay

/-- C3 (counterexample): the one-character whitespace string violates the
claimed constraints — its character is outside the base64 alphabet and is
not a padding sign, so specBase64Shape rejects it — yet isValidBase64
accepts it, because validation runs on the cleaned string, which is empty
and passes both the grammar and the length test. -/
theorem C3_cex_whitespace_accepted :
    isValidBase64 [' '] = true ∧ specBase64Shape [' '] = false ∧
    isB64Char ' ' = false ∧ (' ' : Char) ≠ '=' :=
  ⟨by decide, by decide, by decide, by decide⟩

/-- C3 (amended): every nonempty string that itself consists of base64
alphabet characters plus zero to two trailing padding signs with length a
multiple of 4 is accepted by isValidBase64; the empty string is rejected;
and every string whose cleaned form (trim, data-URI strip, whitespace
removal) violates the grammar or the length condition is rejected.  The
original claim fails only in that the alphabet and length constraints are
checked on the cleaned string, not on the raw input. -/
theorem C3_isValid_shape (s : List Char) :
    (s ≠ [] → specBase64Shape s = true → isValidBase64 s = true) ∧
    isValidBase64 [] = false ∧
    (specBase64Shape (cleanBase64 s) = false → isValidBase64 s = false) := by
  refine ⟨?_, rfl, ?_⟩
  · intro hne hshape
    unfold specBase64Shape at hshape
    simp only [Bool.and_eq_true, beq_iff_eq] at hshape
    have hclean : cleanBase64 s = s :=
      clean_eq_self_of_allowed s (grammar_mem_allowed s hshape.1)
    unfold isValidBase64
    rw [if_neg (by simp [List.isEmpty_iff, hne]), hclean]
    simp [hshape.1, hshape.2]
  · intro hbad
    unfold isValidBase64
    split
    · rfl
    · unfold specBase64Shape at hbad
      exact hbad

/-- Witness for C3 at the valid payload Qk0=, the empty string, and the
single colon (whose cleaned form violates the grammar). -/
theorem C3_isValid_shape_witness :
    isValidBase64 ['Q', 'k', '0', '='] = true ∧ isValidBase64 [] = false ∧
    isValidBase64 [':'] = false :=
  ⟨(C3_isValid_shape ['Q', 'k', '0', '=']).1 (by decide) (by decide),
   (C3_isValid_shape []).2.1,
   (C3_isValid_shape [':']).2.2 (by decide)⟩

/-- C4 (counterexample): on an input carrying a data-URI prefix whose
remainder itself begins with another such prefix, cleanBase64 strips only
the outer prefix, so a second application strips again and the function is
not idempotent there, contrary to the claim. -/
theorem C4_cex_nested_data_uri :
    cleanBase64 (cleanBase64 ("data:a;base64,data:b;base64,xy".toList)) ≠
      cleanBase64 ("data:a;base64,data:b;base64,xy".toList) := by
  decide

/-- C4 (amended): cleanBase64 is idempotent on every input whose cleaned
form does not itself match the data-URI payload regex — the cleaned string
contains no whitespace, so only a prefix that is present in (or re-formed
inside) the cleaned string can make a second application strip further. -/
theorem C4_clean_idempotent (s : List Char)
    (h : dataUriPayload (cleanBase64 s) = none) :
    cleanBase64 (cleanBase64 s) = cleanBase64 s := by
  have hws : ∀ c ∈ cleanBase64 s, isJsWs c = false := by
    intro c hc
    unfold cleanBase64 at hc
    have hf := List.of_mem_filter hc
    simpa using hf
  exact clean_eq_self_core (cleanBase64 s) hws h

/-- Witness for C4 at a padded payload surrounded by whitespace. -/
theorem C4_clean_idempotent_witness :
    cleanBase64 (cleanBase64 ("  QUJD  ".toList)) =
      cleanBase64 ("  QUJD  ".toList) :=
  C4_clean_idempotent ("  QUJD  ".toList) (by decide)

end B64
